import Mathlib

/-!
Shallow embedding of the prize-allocation core of the PickerWheel contest
backend (src/backend/backend-api.py and src/backend/daily_database_backend.py),
together with proofs settling the frozen claims about it.

Conventions of the embedding:
* SQLite tables become Lean lists of records; an SQL `UPDATE ... WHERE c`
  maps every row matching `c`, exactly as the statement does.
* Timestamps (ISO strings compared lexicographically in the source SQL) are
  modelled as naturals with the same ordering.
* Each HTTP handler becomes a pure function `State -> Outcome x State`;
  a request that rolls back or returns an error leaves the state unchanged,
  matching the source's rollback/early-return paths.
* `random.random()` draws are modelled by a rational `coin` in [0,1) supplied
  by the caller (the seeded module-level PRNG); `secrets.choice(seq)` is
  modelled by a natural `ent` from the OS entropy source with
  `choice seq ent = seq[ent % len(seq)]`.  The two sources are distinct
  parameters because `random.seed` does not influence `secrets`.
* Modelled from the spec: the SQL schema file database-schema.sql is not under
  src/.  Per the spec's data model (section 3) a Prize carries no is_unlimited
  attribute (that flag lives on InventoryRecord), and the event window hosts a
  single event (sections 1 and 6, EVENT_ID = 1), so every win record belongs
  to that one event; win inserts that omit event_id (the /api/spin handler)
  are therefore counted by the event-filtered aggregation queries.
-/

namespace PickerWheel

/-- Prize tiers (prize_categories.name in the database). -/
inductive Tier where
  | common
  | rare
  | ultraRare
deriving DecidableEq, Repr

/-- The category name string stored in prize_categories.name. -/
def tierName : Tier → String
  | .common => "common"
  | .rare => "rare"
  | .ultraRare => "ultra_rare"

/-- A row of the prizes table joined with its prize_categories row
(the join is inlined: each prize carries its category's columns).
Per the source inserts, the prizes table has no is_unlimited column. -/
structure Prize where
  pid : Nat
  name : String
  ptype : String
  emoji : String
  isPremium : Bool
  isActive : Bool
  tier : Tier
  categoryDisplay : String
  weight : Nat
  color : String
  textColor : String
deriving DecidableEq, Repr

/-- A row of prize_inventory, keyed (prize_id, available_date) for the single
event.  remaining is an Int because nothing in the schema forbids negatives. -/
structure InvEntry where
  pid : Nat
  date : String
  initialQuantity : Int
  remaining : Int
  perDayLimit : Nat
  isUnlimited : Bool
deriving DecidableEq, Repr

/-- A row of prize_wins (the win journal), for the single event. -/
structure WinRec where
  user : String
  pid : Nat
  winDate : String
deriving DecidableEq, Repr

/-- prize_reservations.status values used by the code. -/
inductive RStatus where
  | reserved
  | finalized
deriving DecidableEq, Repr

/-- A row of prize_reservations. -/
structure Reservation where
  rid : String
  key : String
  user : String
  pid : Nat
  sectorIndex : Nat
  sectorCenter : ℚ
  reservedAt : Nat
  expiresAt : Nat
  status : RStatus
deriving DecidableEq, Repr

/-- The persistent state touched by the backend-api.py handlers. -/
structure ApiState where
  prizes : List Prize
  inventory : List InvEntry
  wins : List WinRec
  reservations : List Reservation
deriving DecidableEq, Repr

/-- SELECT COUNT(*) FROM prize_wins WHERE prize_id = pid AND win_date = d
(AND event_id = EVENT_ID, vacuous in the single-event model). -/
def countWins (wins : List WinRec) (pid : Nat) (d : String) : Nat :=
  (wins.filter (fun w => w.pid == pid && w.winDate == d)).length

/-- SELECT * FROM prize_inventory WHERE prize_id = pid AND available_date = d. -/
def invLookup (inv : List InvEntry) (pid : Nat) (d : String) : Option InvEntry :=
  inv.find? (fun e => e.pid == pid && e.date == d)

/-- SELECT * FROM prizes WHERE id = pid. -/
def prizeLookup (prizes : List Prize) (pid : Nat) : Option Prize :=
  prizes.find? (fun p => p.pid == pid)

/-- One row of the PrizeManager.get_available_prizes result set
(prize columns, joined inventory columns, today's win count). -/
structure AvailRow where
  prize : Prize
  remaining : Int
  isUnlimited : Bool
  perDayLimit : Nat
  todayWins : Nat
  effectiveQuantity : Int
deriving DecidableEq, Repr

/-- PrizeManager.get_available_prizes(target_date) (backend-api.py:616-725),
the per_day_limit branch of the query (the live schema has that column):
active prizes LEFT JOINed with prize_inventory for the date, kept when
`(pi.remaining_quantity > 0 OR pi.is_unlimited = 1) AND (pi.is_unlimited = 1
OR today_wins < pi.per_day_limit)`.  A prize with no inventory row for the
date yields NULL inventory columns, which fail both disjunctions, so it is
dropped — exactly the `none => none` branch.  The source's ORDER BY only
reorders rows and is not modelled; the claims are membership statements. -/
def getAvailablePrizes (s : ApiState) (d : String) : List AvailRow :=
  s.prizes.filterMap (fun p =>
    match invLookup s.inventory p.pid d with
    | none => none
    | some e =>
      if p.isActive = true ∧ (0 < e.remaining ∨ e.isUnlimited = true) ∧
          (e.isUnlimited = true ∨ countWins s.wins p.pid d < e.perDayLimit) then
        some { prize := p
               remaining := e.remaining
               isUnlimited := e.isUnlimited
               perDayLimit := e.perDayLimit
               todayWins := countWins s.wins p.pid d
               effectiveQuantity := if e.isUnlimited then 999 else e.remaining }
      else none)

/-- Today's tier statistics read inside select_random_prize
(backend-api.py:770-781): counts over prize_wins JOIN prizes, so wins whose
prize id is absent from the catalog are not counted. -/
structure TierStats where
  totalWins : Nat
  rareWins : Nat
deriving DecidableEq, Repr

def tierStatsOf (s : ApiState) (d : String) : TierStats :=
  let todays := (s.wins.filter (fun w => w.winDate == d)).filter
    (fun w => (prizeLookup s.prizes w.pid).isSome)
  { totalWins := todays.length
    rareWins := (todays.filter (fun w =>
      match prizeLookup s.prizes w.pid with
      | some p => p.tier == Tier.rare || p.tier == Tier.ultraRare
      | none => false)).length }

/-- secrets.choice(seq) / random.choice(seq) with entropy n:
the element at index n % len(seq), none on the empty sequence. -/
def pickChoice {α : Type} (l : List α) (n : Nat) : Option α :=
  l.get? (n % l.length)

/-- The filtered_prizes local of select_random_prize (backend-api.py:742-749):
drop candidates that reached their daily limit unless is_unlimited. -/
def capFilteredRows (availablePrizes : List AvailRow) : List AvailRow :=
  availablePrizes.filter (fun p =>
    !(decide (p.perDayLimit ≤ p.todayWins) && !p.isUnlimited))

/-- The rare_prizes local of select_random_prize. -/
def rareRowsOf (l : List AvailRow) : List AvailRow :=
  l.filter (fun p => p.prize.tier == Tier.rare)

/-- The ultra_rare_prizes local of select_random_prize. -/
def ultraRareRowsOf (l : List AvailRow) : List AvailRow :=
  l.filter (fun p => p.prize.tier == Tier.ultraRare)

/-- The weighted_prizes pool of select_random_prize (backend-api.py:802-823):
each candidate contributes max(1, weight x tier multiplier) copies. -/
def weightedPoolOf (l : List AvailRow) : List AvailRow :=
  l.flatMap (fun p =>
    let adjustedWeight := match p.prize.tier with
      | Tier.rare => p.prize.weight * 5
      | Tier.ultraRare => p.prize.weight * 8
      | Tier.common => p.prize.weight
    List.replicate (max 1 adjustedWeight) p)

/-- PrizeManager.select_random_prize(available_prizes)
(backend-api.py:728-837).  Steps, in source order:
1. empty candidate list -> None;
2. drop candidates that reached their daily limit unless is_unlimited;
3. read today's tier stats and compute the rare share and the
   boost_rare_items flag — the flag is never used afterwards (the recent-wins
   read at lines 760-767 is likewise dead and not modelled);
4. partition into rare / ultra_rare pools;
5. if a rare-tier pool is non-empty and the seeded coin is below 0.50, force
   the pick from the rare-tier pool, preferring ultra_rare (secrets.choice);
6. otherwise draw from the weighted pool, each candidate contributing
   max(1, weight x 5 for rare / x 8 for ultra_rare / x 1 otherwise) copies. -/
def selectRandomPrize (availablePrizes : List AvailRow) (stats : TierStats)
    (coin : ℚ) (ent : Nat) : Option AvailRow :=
  if availablePrizes.isEmpty then none else
  let filteredPrizes := capFilteredRows availablePrizes
  if filteredPrizes.isEmpty then none else
  let rareCurrentPct : ℚ :=
    if 0 < stats.totalWins then mkRat stats.rareWins stats.totalWins else 0
  let _boostRareItems := rareCurrentPct < mkRat 3 10
  let rarePrizes := rareRowsOf filteredPrizes
  let ultraRarePrizes := ultraRareRowsOf filteredPrizes
  if (¬rarePrizes.isEmpty ∨ ¬ultraRarePrizes.isEmpty) ∧ coin < mkRat 1 2 then
    if ¬ultraRarePrizes.isEmpty then pickChoice ultraRarePrizes ent
    else pickChoice rarePrizes ent
  else
    let weightedPrizes := weightedPoolOf filteredPrizes
    if weightedPrizes.isEmpty then none else pickChoice weightedPrizes ent

/-- The guarded inventory decrement shared by the award paths
(the UPDATE at backend-api.py:1511-1515 and at 2019-2023): decrement every
prize_inventory row matching (prize_id, date) whose remaining_quantity is
still positive. -/
def decrementGuarded (inv : List InvEntry) (pid : Nat) (d : String) : List InvEntry :=
  inv.map (fun e =>
    if e.pid == pid && e.date == d && decide (0 < e.remaining)
    then { e with remaining := e.remaining - 1 } else e)

/-- Outcome of POST /api/spin (backend-api.py:1454-1545). -/
inductive SpinOutcome where
  | noPrizeId
  | noPrizesAvailable
  | success (row : AvailRow)
deriving DecidableEq, Repr

/-- POST /api/spin, spin_wheel (backend-api.py:1454-1545).  The submitted
selected_prize_id is looked up in today's available prizes; if absent, the
handler silently falls back to select_random_prize over the same list.  The
award records a win (the INSERT at line 1504 omits event_id; single-event
model) and, for a non-unlimited prize, decrements every inventory row
matching (prize_id, today) that still has remaining_quantity > 0, which is
the UPDATE at line 1511.  A Python prize id of 0/None is falsy and rejected
up front. -/
def spinWheel (s : ApiState) (selectedPrizeId : Nat) (user : String)
    (today : String) (coin : ℚ) (ent : Nat) : SpinOutcome × ApiState :=
  if selectedPrizeId = 0 then (.noPrizeId, s) else
  let availablePrizes := getAvailablePrizes s today
  let selected : Option AvailRow :=
    match availablePrizes.find? (fun p => p.prize.pid == selectedPrizeId) with
    | some p => some p
    | none =>
      if availablePrizes.isEmpty then none
      else selectRandomPrize availablePrizes (tierStatsOf s today) coin ent
  match selected with
  | none => (.noPrizesAvailable, s)
  | some row =>
    let s₁ := { s with wins := ⟨user, row.prize.pid, today⟩ :: s.wins }
    let s₂ :=
      if row.isUnlimited then s₁
      else { s₁ with inventory := decrementGuarded s₁.inventory row.prize.pid today }
    (.success row, s₂)

/-- Outcome of POST /api/spin/finalize (backend-api.py:1922-2059). -/
inductive FinalizeOutcome where
  | invalidOrExpired
  | prizeRowMissing
  | outOfStock
  | capReached
  | inventoryUpdateFailed
  | success (awardId : String)
deriving DecidableEq, Repr

/-- Python's `inventory['per_day_limit'] or 1` (backend-api.py:1995):
a falsy (0/NULL) stored limit is replaced by 1. -/
def effectiveLimit (n : Nat) : Nat := if n = 0 then 1 else n

/-- POST /api/spin/finalize, finalize_prize (backend-api.py:1922-2059).
The reservation must match reservation_id and idempotency_key with
status = 'reserved' and expires_at in the future, else a 400 rejection.
The prize row is then loaded from the prizes table; since that table has no
is_unlimited column, `prize_data.get('is_unlimited', False)` is always
False and the quantity and per-day checks always run: missing inventory or
remaining_quantity <= 0 gives a 409, today's win count at or above
`per_day_limit or 1` gives a 409.  Otherwise the win is inserted, the
guarded decrement must touch a row (its rowcount re-check is the
0 < remaining test, which the earlier check already guarantees here), and
the reservation rows with this id still in 'reserved' flip to 'finalized'.
Every failure path rolls the transaction back, so it returns the input
state unchanged. -/
def finalizePrize (s : ApiState) (reservationId idempotencyKey user : String)
    (now : Nat) (today : String) : FinalizeOutcome × ApiState :=
  match s.reservations.find? (fun r =>
      r.rid == reservationId && r.key == idempotencyKey &&
      r.status == RStatus.reserved && decide (now < r.expiresAt)) with
  | none => (.invalidOrExpired, s)
  | some resv =>
    match prizeLookup s.prizes resv.pid with
    | none => (.prizeRowMissing, s)
    | some _prizeData =>
      match invLookup s.inventory resv.pid today with
      | none => (.outOfStock, s)
      | some inv =>
        if inv.remaining ≤ 0 then (.outOfStock, s)
        else if effectiveLimit inv.perDayLimit ≤ countWins s.wins resv.pid today then
          (.capReached, s)
        else if 0 < inv.remaining then
          let s₁ := { s with wins := ⟨user, resv.pid, today⟩ :: s.wins }
          let s₂ := { s₁ with inventory := decrementGuarded s₁.inventory resv.pid today }
          let s₃ := { s₂ with reservations := s₂.reservations.map (fun r =>
            if r.rid == reservationId && r.status == RStatus.reserved
            then { r with status := RStatus.finalized } else r) }
          (.success ("award_" ++ reservationId ++ "_" ++ toString now), s₃)
        else (.inventoryUpdateFailed, s)

/-- A scalar JSON value appearing in the serialized prize object of a
reservation response (SQLite renders booleans as 0/1 integers). -/
inductive JVal where
  | jnum (n : Int)
  | jstr (s : String)
deriving DecidableEq, Repr

/-- The full prize dict placed in a fresh reservation response: the complete
get_available_prizes row (backend-api.py:634-666).  Combo prizes would gain
an extra items sub-list (line 711-720); the model is restricted to single
prizes, for which no such key is added. -/
def fullPrizeJson (row : AvailRow) : List (String × JVal) :=
  [("id", .jnum row.prize.pid),
   ("name", .jstr row.prize.name),
   ("type", .jstr row.prize.ptype),
   ("emoji", .jstr row.prize.emoji),
   ("is_premium", .jnum (if row.prize.isPremium then 1 else 0)),
   ("category", .jstr (tierName row.prize.tier)),
   ("category_display", .jstr row.prize.categoryDisplay),
   ("weight", .jnum row.prize.weight),
   ("color", .jstr row.prize.color),
   ("text_color", .jstr row.prize.textColor),
   ("remaining_quantity", .jnum row.remaining),
   ("is_unlimited", .jnum (if row.isUnlimited then 1 else 0)),
   ("per_day_limit", .jnum row.perDayLimit),
   ("today_wins", .jnum row.todayWins),
   ("effective_quantity", .jnum row.effectiveQuantity)]

/-- The reduced prize dict a replayed reservation response reconstructs
(check_existing_reservation, backend-api.py:2715-2722): only id, name,
emoji and category survive. -/
def miniPrizeJson (pid : Nat) (name emoji category : String) : List (String × JVal) :=
  [("id", .jnum pid),
   ("name", .jstr name),
   ("emoji", .jstr emoji),
   ("category", .jstr category)]

/-- The reservation response payload (the fields the HMAC signature is
computed over, before the signature key is appended).  The signature itself
is HMAC-SHA256 of the canonical sorted-key JSON of exactly these fields
(generate_response_signature, backend-api.py:2675-2691), so two responses
carry the same signature exactly when these payloads serialize identically. -/
structure ResponsePayload where
  prize : List (String × JVal)
  sectorIndex : Nat
  sectorCenter : ℚ
  reservationId : String
  reservationTtl : Nat
  message : String
  serverTimestamp : Nat
deriving DecidableEq, Repr

/-- check_existing_reservation(idempotency_key) (backend-api.py:2693-2740):
the newest non-expired reservation row for the key, joined with its prize
(any status — the query does not filter on status).  Reservations are kept
newest-first in the model (inserts prepend), so the first match is the
ORDER BY reserved_at DESC LIMIT 1 row.  The replayed payload carries the
reduced prize dict, the stored sector data, a re-stated TTL of 300 and the
stored reserved_at as server_timestamp, and is then re-signed. -/
def checkExistingReservation (s : ApiState) (idempotencyKey : String)
    (now : Nat) : Option ResponsePayload :=
  match s.reservations.find? (fun r =>
      r.key == idempotencyKey && decide (now < r.expiresAt) &&
      (prizeLookup s.prizes r.pid).isSome) with
  | none => none
  | some r =>
    match prizeLookup s.prizes r.pid with
    | none => none
    | some p => some
      { prize := miniPrizeJson r.pid p.name p.emoji (tierName p.tier)
        sectorIndex := r.sectorIndex
        sectorCenter := r.sectorCenter
        reservationId := r.rid
        reservationTtl := 300
        message := "Congratulations! You won " ++ p.name ++ "!"
        serverTimestamp := r.reservedAt }

/-- The full wheel: all active prizes ordered by id (the model keeps the
catalog list in ascending-id order, the order the SQL ORDER BY p.id yields). -/
def activeWheelPrizes (s : ApiState) : List Prize :=
  s.prizes.filter (fun p => p.isActive)

/-- Sector index of a prize on the wheel: its position among the active
prizes, defaulting to 0 when absent (the `next(..., 0)` at line 1870-1873). -/
def sectorIndexOf (s : ApiState) (pid : Nat) : Nat :=
  match (activeWheelPrizes s).findIdx? (fun p => p.pid == pid) with
  | some i => i
  | none => 0

/-- sector_center = index * (360/n) + (360/n)/2 (backend-api.py:1876-1877),
written as the equal normalized rational (2*index+1)*360 / (2*n) so that the
kernel can evaluate it; Python computes the same value in floats. -/
def sectorCenterOf (s : ApiState) (sectorIndex : Nat) : ℚ :=
  let n := (activeWheelPrizes s).length
  mkRat ((2 * sectorIndex + 1) * 360) (2 * n)

/-- Outcome of POST /api/spin/reserve (backend-api.py:1726-1919). -/
inductive ReserveOutcome where
  | replay (payload : ResponsePayload)
  | noPrizesAvailable
  | selectionFailed
  | noRemainingInventory
  | fresh (payload : ResponsePayload)
deriving DecidableEq, Repr

/-- POST /api/spin/reserve, reserve_prize (backend-api.py:1726-1919).
In source order:
1. an existing non-expired reservation for the idempotency key is replayed
   as-is and nothing else happens;
2. today's available prizes are fetched and re-filtered against the current
   win counts (the filter at lines 1772-1783, equivalent to the query's own
   cap condition);
3. select_random_prize picks the prize (seeded coin, entropy index);
4. for a non-unlimited pick, inventory is re-checked: a missing/empty row or
   a reached daily limit discards the pick and reselects once from the
   available list without it (the two textually-identical fallback blocks at
   lines 1820-1857, merged here; the fallback pick is not re-checked), or
   returns 409 when no other prize remains;
5. the reservation row is stored (TTL 300 s, id "res_<key>_<now>") and the
   signed response carries the full prize row dict. -/
def reservePrize (s : ApiState) (idempotencyKey user : String) (now : Nat)
    (today : String) (coin : ℚ) (ent : Nat) (coin₂ : ℚ) (ent₂ : Nat) :
    ReserveOutcome × ApiState :=
  match checkExistingReservation s idempotencyKey now with
  | some payload => (.replay payload, s)
  | none =>
    let availablePrizes := getAvailablePrizes s today
    if availablePrizes.isEmpty then (.noPrizesAvailable, s) else
    let filteredPrizes := availablePrizes.filter (fun p =>
      !(!p.isUnlimited && decide (p.perDayLimit ≤ countWins s.wins p.prize.pid today)))
    if filteredPrizes.isEmpty then (.noPrizesAvailable, s) else
    match selectRandomPrize filteredPrizes (tierStatsOf s today) coin ent with
    | none => (.selectionFailed, s)
    | some selected₀ =>
      let verified : Except ReserveOutcome AvailRow :=
        if selected₀.isUnlimited then .ok selected₀ else
        let needFallback : Bool :=
          match invLookup s.inventory selected₀.prize.pid today with
          | none => true
          | some inv =>
            decide (inv.remaining ≤ 0) ||
            decide (inv.perDayLimit ≤ countWins s.wins selected₀.prize.pid today)
        if needFallback then
          let remainingAvail := availablePrizes.filter
            (fun p => p.prize.pid != selected₀.prize.pid)
          if remainingAvail.isEmpty then .error .noRemainingInventory
          else
            match selectRandomPrize remainingAvail (tierStatsOf s today) coin₂ ent₂ with
            | none => .error .selectionFailed
            | some sel => .ok sel
        else .ok selected₀
      match verified with
      | .error o => (o, s)
      | .ok selected =>
        let sectorIndex := sectorIndexOf s selected.prize.pid
        let sectorCenter := sectorCenterOf s sectorIndex
        let rid := "res_" ++ idempotencyKey ++ "_" ++ toString now
        let resv : Reservation :=
          { rid := rid, key := idempotencyKey, user := user
            pid := selected.prize.pid
            sectorIndex := sectorIndex, sectorCenter := sectorCenter
            reservedAt := now, expiresAt := now + 300, status := .reserved }
        let payload : ResponsePayload :=
          { prize := fullPrizeJson selected
            sectorIndex := sectorIndex, sectorCenter := sectorCenter
            reservationId := rid, reservationTtl := 300
            message := "Congratulations! You won " ++ selected.prize.name ++ "!"
            serverTimestamp := now }
        (.fresh payload, { s with reservations := resv :: s.reservations })

/-! The daily_database_backend.py variant: per-date tables daily_prizes,
daily_inventory, daily_transactions, daily_stats (schemas in
src/scripts/reset_database.py). -/

/-- A row of daily_prizes, keyed (date, prize_id). -/
structure DailyPrizeRow where
  date : String
  pid : Nat
  name : String
  category : String
  quantity : Nat
  dailyLimit : Nat
  availableDates : String
  emoji : String
deriving DecidableEq, Repr

/-- A row of daily_inventory, UNIQUE(date, prize_id). -/
structure DailyInvRow where
  date : String
  pid : Nat
  name : String
  initialQuantity : Int
  remaining : Int
  dailyLimit : Nat
deriving DecidableEq, Repr

/-- A row of daily_transactions. -/
structure DailyTrans where
  date : String
  pid : Nat
  name : String
  user : String
  ttype : String
deriving DecidableEq, Repr

/-- A row of daily_stats, UNIQUE(date). -/
structure DailyStatsRow where
  date : String
  totalPrizes : Nat
  totalWins : Nat
  uniqueUsers : Nat
deriving DecidableEq, Repr

/-- The persistent state touched by the daily_database_backend.py handlers. -/
structure DailyState where
  dailyPrizes : List DailyPrizeRow
  dailyInventory : List DailyInvRow
  transactions : List DailyTrans
  stats : List DailyStatsRow
deriving DecidableEq, Repr

/-- COUNT(*) FROM daily_transactions WHERE date = d AND prize_id = pid AND
transaction_type = 'win'. -/
def winsToday (txs : List DailyTrans) (pid : Nat) (d : String) : Nat :=
  (txs.filter (fun t => t.date == d && t.pid == pid && t.ttype == "win")).length

/-- One row of DailyPrizeManager.get_available_prizes. -/
structure DailyAvailRow where
  pid : Nat
  name : String
  category : String
  quantity : Nat
  dailyLimit : Nat
  availableDates : String
  emoji : String
  remaining : Int
  winsToday : Nat
deriving DecidableEq, Repr

/-- DailyPrizeManager.get_available_prizes(target_date)
(daily_database_backend.py:509-574): daily_prizes for the date inner-joined
with daily_inventory on (date, prize_id), kept when remaining_quantity > 0
and today's win count is below the daily limit.  The handler first syncs the
item list into the tables; the model takes an already-synced state. -/
def getAvailablePrizesDaily (s : DailyState) (d : String) : List DailyAvailRow :=
  s.dailyPrizes.filterMap (fun dp =>
    if dp.date ≠ d then none else
    match s.dailyInventory.find? (fun di => di.date == dp.date && di.pid == dp.pid) with
    | none => none
    | some di =>
      if 0 < di.remaining ∧ winsToday s.transactions dp.pid d < dp.dailyLimit then
        some { pid := dp.pid, name := dp.name, category := dp.category
               quantity := dp.quantity, dailyLimit := dp.dailyLimit
               availableDates := dp.availableDates, emoji := dp.emoji
               remaining := di.remaining
               winsToday := winsToday s.transactions dp.pid d }
      else none)

/-- DailyPrizeManager.consume_prize (daily_database_backend.py:741-791):
insert a 'win' transaction, then decrement remaining_quantity for every
daily_inventory row matching (date, prize_id) — the UPDATE at lines 755-759
carries no remaining_quantity > 0 guard — then bump daily_stats.total_wins
and recompute unique_users for the date.  Always returns True (the model has
no I/O failures). -/
def consumePrize (s : DailyState) (pid : Nat) (prizeName : String)
    (d : String) (user : String) : Bool × DailyState :=
  let s₁ := { s with transactions := ⟨d, pid, prizeName, user, "win"⟩ :: s.transactions }
  let s₂ := { s₁ with dailyInventory := s₁.dailyInventory.map (fun (di : DailyInvRow) =>
    if di.date == d && di.pid == pid
    then { di with remaining := di.remaining - 1 } else di) }
  let uniqueCount := ((s₂.transactions.filter
    (fun (t : DailyTrans) => t.date == d && t.ttype == "win")).map
      (fun (t : DailyTrans) => t.user)).dedup.length
  let s₃ := { s₂ with stats := s₂.stats.map (fun (st : DailyStatsRow) =>
    if st.date == d
    then { st with totalWins := st.totalWins + 1, uniqueUsers := uniqueCount }
    else st) }
  (true, s₃)

/-- Outcome of the daily backend's POST /api/spin. -/
inductive DailySpinOutcome where
  | noPrizeId
  | noLongerAvailable
  | processFailed
  | success (row : DailyAvailRow)
deriving DecidableEq, Repr

/-- The daily backend's POST /api/spin, spin_wheel
(daily_database_backend.py:1057-1125): unlike the backend-api variant, a
submitted prize id that is not in the available list is a hard 400 error
with no fallback; an available one is consumed via consume_prize. -/
def spinWheelDaily (s : DailyState) (selectedPrizeId : Nat) (user : String)
    (d : String) : DailySpinOutcome × DailyState :=
  if selectedPrizeId = 0 then (.noPrizeId, s) else
  match (getAvailablePrizesDaily s d).find? (fun p => p.pid == selectedPrizeId) with
  | none => (.noLongerAvailable, s)
  | some row =>
    let r := consumePrize s row.pid row.name d user
    if r.1 then (.success row, r.2) else (.processFailed, s)

/-! Invariants and operation sequences. -/

/-- The spec's cap invariant on the backend-api state: for every provisioned
(prize, date) inventory row that is not unlimited, the win journal holds at
most per_day_limit records for that prize and date. -/
def capInvApi (s : ApiState) : Prop :=
  ∀ e ∈ s.inventory, e.isUnlimited = false →
    countWins s.wins e.pid e.date ≤ e.perDayLimit

/-- The spec's no-oversell invariant on the backend-api state. -/
def nonnegInvApi (s : ApiState) : Prop :=
  ∀ e ∈ s.inventory, 0 ≤ e.remaining

/-- Well-formedness matching the schema's UNIQUE(prize_id, event_id,
available_date) constraint: inventory keys are distinct. -/
def wfInvKeys (s : ApiState) : Prop :=
  (s.inventory.map (fun e => (e.pid, e.date))).Nodup

/-- Every provisioned per-day limit is at least 1 (the schema default; the
provisioning code writes 100 for common and a parsed value defaulting to 1
for rare tiers). -/
def limitsPos (s : ApiState) : Prop :=
  ∀ e ∈ s.inventory, 1 ≤ e.perDayLimit

/-- An award operation of the backend-api variant: a finalize call or a spin
call, with the request data and the clock/randomness it observes. -/
inductive AwardOp where
  | finalize (reservationId idempotencyKey user : String) (now : Nat) (today : String)
  | spin (selectedPrizeId : Nat) (user : String) (today : String) (coin : ℚ) (ent : Nat)

/-- State reached after one award operation. -/
def applyOp (s : ApiState) : AwardOp → ApiState
  | .finalize rid key user now today => (finalizePrize s rid key user now today).2
  | .spin pid user today coin ent => (spinWheel s pid user today coin ent).2

/-- State reached after a sequence of award operations. -/
def applyOps (s : ApiState) (ops : List AwardOp) : ApiState :=
  ops.foldl applyOp s

/-- The cap invariant on the daily-backend state: for every daily_prizes row,
the 'win' transactions for its (prize, date) stay within its daily limit. -/
def capInvDaily (s : DailyState) : Prop :=
  ∀ dp ∈ s.dailyPrizes, winsToday s.transactions dp.pid dp.date ≤ dp.dailyLimit

/-- The no-oversell invariant on the daily-backend state. -/
def nonnegInvDaily (s : DailyState) : Prop :=
  ∀ di ∈ s.dailyInventory, 0 ≤ di.remaining

/-- Key uniqueness mirroring UNIQUE(date, prize_id) on daily_inventory. -/
def wfDailyInvKeys (s : DailyState) : Prop :=
  (s.dailyInventory.map (fun di => (di.date, di.pid))).Nodup

/-- One daily_prizes row per (date, prize_id), as the sync code maintains. -/
def wfDailyPrizeKeys (s : DailyState) : Prop :=
  (s.dailyPrizes.map (fun dp => (dp.date, dp.pid))).Nodup

/-- A spin request against the daily backend. -/
structure DailySpinArgs where
  pid : Nat
  user : String
  date : String

/-- State reached after a sequence of daily spin calls. -/
def applyDailySpins (s : DailyState) (ops : List DailySpinArgs) : DailyState :=
  ops.foldl (fun s a => (spinWheelDaily s a.pid a.user a.date).2) s

instance (s : ApiState) : Decidable (capInvApi s) :=
  inferInstanceAs (Decidable (∀ e ∈ s.inventory, e.isUnlimited = false →
    countWins s.wins e.pid e.date ≤ e.perDayLimit))

instance (s : ApiState) : Decidable (nonnegInvApi s) :=
  inferInstanceAs (Decidable (∀ e ∈ s.inventory, 0 ≤ e.remaining))

instance (s : ApiState) : Decidable (wfInvKeys s) :=
  inferInstanceAs (Decidable ((s.inventory.map (fun e : InvEntry => (e.pid, e.date))).Nodup))

instance (s : ApiState) : Decidable (limitsPos s) :=
  inferInstanceAs (Decidable (∀ e ∈ s.inventory, 1 ≤ e.perDayLimit))

instance (s : DailyState) : Decidable (capInvDaily s) :=
  inferInstanceAs (Decidable (∀ dp ∈ s.dailyPrizes,
    winsToday s.transactions dp.pid dp.date ≤ dp.dailyLimit))

instance (s : DailyState) : Decidable (nonnegInvDaily s) :=
  inferInstanceAs (Decidable (∀ di ∈ s.dailyInventory, 0 ≤ di.remaining))

instance (s : DailyState) : Decidable (wfDailyInvKeys s) :=
  inferInstanceAs (Decidable ((s.dailyInventory.map (fun di : DailyInvRow => (di.date, di.pid))).Nodup))

instance (s : DailyState) : Decidable (wfDailyPrizeKeys s) :=
  inferInstanceAs (Decidable ((s.dailyPrizes.map (fun dp : DailyPrizeRow => (dp.date, dp.pid))).Nodup))

/-- Projection of a fresh reservation outcome to its payload. -/
def freshPayload? : ReserveOutcome → Option ResponsePayload
  | .fresh pl => some pl
  | _ => none

/-! Concrete states used to exercise the claims.  Dates are within the
event window 2025-09-21 .. 2025-11-21 and ids follow the catalog layout. -/

/-- An active common-tier catalog prize. -/
def giftACommon : Prize :=
  ⟨1, "Gift A", "single", "GA", false, true, .common, "Common", 10, "#ffffff", "#000000"⟩

/-- An active rare-tier catalog prize. -/
def giftBRare : Prize :=
  ⟨2, "Gift B", "single", "GB", true, true, .rare, "Rare", 2, "#ffd700", "#000000"⟩

/-- An active ultra-rare catalog prize. -/
def giftCUltra : Prize :=
  ⟨3, "Gift C", "single", "GC", true, true, .ultraRare, "Ultra Rare", 1, "#ff00ff", "#ffffff"⟩

/-- C1 example: a catalog with an unlimited common and a capped rare prize,
one pending reservation for the rare prize. -/
def c1ApiState : ApiState :=
  { prizes := [giftACommon, giftBRare]
    inventory := [⟨1, "2025-10-01", 999, 999, 100, true⟩, ⟨2, "2025-10-01", 5, 5, 1, false⟩]
    wins := []
    reservations := [⟨"r1", "k1", "u1", 2, 1, mkRat 270 1, 50, 350, .reserved⟩] }

/-- C1 example: finalize the rare reservation, spin asking for the now
cap-reached rare prize (falls back to the common one), finalize again. -/
def c1Ops : List AwardOp :=
  [.finalize "r1" "k1" "u1" 100 "2025-10-01",
   .spin 2 "u2" "2025-10-01" (mkRat 3 4) 0,
   .finalize "r1" "k1" "u1" 120 "2025-10-01"]

/-- C1 daily example state. -/
def c1DailyState : DailyState :=
  { dailyPrizes := [⟨"2025-10-01", 1, "Gift A", "common", 100, 100, "*", "GA"⟩,
                    ⟨"2025-10-01", 2, "Gift B", "rare", 5, 1, "*", "GB"⟩]
    dailyInventory := [⟨"2025-10-01", 1, "Gift A", 100, 100, 100⟩,
                       ⟨"2025-10-01", 2, "Gift B", 5, 5, 1⟩]
    transactions := []
    stats := [⟨"2025-10-01", 2, 0, 0⟩] }

/-- C1 daily example: spin the rare prize twice (second is rejected). -/
def c1DailyOps : List DailySpinArgs :=
  [⟨2, "u1", "2025-10-01"⟩, ⟨2, "u2", "2025-10-01"⟩, ⟨1, "u3", "2025-10-01"⟩]

/-- C2 counterexample state: the rare prize has zero remaining inventory. -/
def c2DailyState : DailyState :=
  { dailyPrizes := [⟨"2025-10-01", 1, "Gift A", "rare", 5, 1, "*", "GA"⟩]
    dailyInventory := [⟨"2025-10-01", 1, "Gift A", 5, 0, 1⟩]
    transactions := []
    stats := [⟨"2025-10-01", 1, 0, 0⟩] }

/-- C2 witness state: one unit left for the prize being consumed. -/
def c2GoodDailyState : DailyState :=
  { dailyPrizes := [⟨"2025-10-01", 1, "Gift A", "rare", 5, 1, "*", "GA"⟩]
    dailyInventory := [⟨"2025-10-01", 1, "Gift A", 5, 1, 1⟩]
    transactions := []
    stats := [⟨"2025-10-01", 1, 0, 0⟩] }

/-- C2 witness state on the backend-api side. -/
def c2ApiState : ApiState :=
  { prizes := [giftACommon, giftBRare]
    inventory := [⟨1, "2025-10-01", 999, 999, 100, true⟩, ⟨2, "2025-10-01", 5, 1, 1, false⟩]
    wins := []
    reservations := [⟨"r1", "k1", "u1", 2, 1, mkRat 270 1, 50, 350, .reserved⟩] }

/-- C4 example: a single-prize catalog about to take its first reservation. -/
def c4State : ApiState :=
  { prizes := [giftACommon]
    inventory := [⟨1, "2025-10-01", 5, 5, 3, false⟩]
    wins := []
    reservations := [] }

/-- The first reserve call for idempotency key "abc". -/
def c4First : ReserveOutcome × ApiState :=
  reservePrize c4State "abc" "u1" 1000 "2025-10-01" (mkRat 3 4) 0 (mkRat 3 4) 0

/-- The replay a second call with key "abc" receives 100 s later. -/
def c4SecondPayload : Option ResponsePayload :=
  checkExistingReservation c4First.2 "abc" 1100

/-- The replayed payload, written out: the stored reservation data with the
reconstructed four-field prize object. -/
def c4ReplayPl : ResponsePayload :=
  { prize := miniPrizeJson 1 "Gift A" "GA" "common"
    sectorIndex := 0
    sectorCenter := mkRat 180 1
    reservationId := "res_abc_1000"
    reservationTtl := 300
    message := "Congratulations! You won Gift A!"
    serverTimestamp := 1000 }

/-- C5 example: a live reservation "r1" and an expired reservation "r2"
for the rare prize. -/
def c5State : ApiState :=
  { prizes := [giftBRare]
    inventory := [⟨2, "2025-10-01", 5, 5, 3, false⟩]
    wins := []
    reservations := [⟨"r1", "k1", "u1", 2, 0, mkRat 180 1, 40, 340, .reserved⟩,
                     ⟨"r2", "k2", "u2", 2, 0, mkRat 180 1, 10, 60, .reserved⟩] }

/-- C6 counterexample state: an is_unlimited inventory row whose
remaining_quantity is zero. -/
def c6State : ApiState :=
  { prizes := [giftACommon]
    inventory := [⟨1, "2025-10-01", 0, 0, 1, true⟩]
    wins := []
    reservations := [] }

/-- C6 witness state: an ordinary stocked prize. -/
def c6bState : ApiState :=
  { prizes := [giftBRare]
    inventory := [⟨2, "2025-10-01", 5, 5, 1, false⟩]
    wins := []
    reservations := [] }

/-- The availability row c6bState produces for Gift B. -/
def c6bRow : AvailRow :=
  { prize := giftBRare, remaining := 5, isUnlimited := false,
    perDayLimit := 1, todayWins := 0, effectiveQuantity := 5 }

/-- C7 example: an is_unlimited prize whose wins today already reached
per_day_limit. -/
def c7State : ApiState :=
  { prizes := [giftACommon]
    inventory := [⟨1, "2025-10-01", 5, 5, 1, true⟩]
    wins := [⟨"u1", 1, "2025-10-01"⟩]
    reservations := [⟨"r1", "k1", "u1", 1, 0, mkRat 180 1, 40, 340, .reserved⟩] }

/-- C8/C9/C10 availability rows built over the example catalog. -/
def c8CommonRow : AvailRow :=
  { prize := { giftACommon with weight := 1 }, remaining := 5, isUnlimited := false,
    perDayLimit := 3, todayWins := 0, effectiveQuantity := 5 }

def c8UltraRow : AvailRow :=
  { prize := giftCUltra, remaining := 2, isUnlimited := false,
    perDayLimit := 3, todayWins := 0, effectiveQuantity := 2 }

def c8Avail : List AvailRow := [c8CommonRow, c8UltraRow]

/-- A win-count snapshot in which every win so far is rare-tier:
the observed rare share is 100 percent, far above the 30 percent target. -/
def c8Stats : TierStats := ⟨4, 4⟩

/-- A second ultra-rare row distinguishable from c8UltraRow. -/
def c9UltraRowB : AvailRow :=
  { prize := { giftCUltra with pid := 4, name := "Gift D" }, remaining := 2,
    isUnlimited := false, perDayLimit := 3, todayWins := 0, effectiveQuantity := 2 }

def c9Avail : List AvailRow := [c8UltraRow, c9UltraRowB]

def c9Stats : TierStats := ⟨0, 0⟩

/-- C10 example: only Gift A is available; the client will submit id 99. -/
def c10State : ApiState :=
  { prizes := [giftACommon]
    inventory := [⟨1, "2025-10-01", 999, 999, 100, true⟩]
    wins := []
    reservations := [] }

/-! Basic lemmas about the embedded primitives. -/

theorem countWins_cons (u : String) (pid : Nat) (d : String) (wins : List WinRec)
    (pid' : Nat) (d' : String) :
    countWins (⟨u, pid, d⟩ :: wins) pid' d' =
      countWins wins pid' d' + (if pid = pid' ∧ d = d' then 1 else 0) := by
  by_cases h : pid = pid' ∧ d = d'
  · obtain ⟨h1, h2⟩ := h
    subst h1; subst h2
    simp [countWins, List.filter_cons]
  · have hb : ((⟨u, pid, d⟩ : WinRec).pid == pid' && (⟨u, pid, d⟩ : WinRec).winDate == d') = false := by
      simp only [Bool.and_eq_false_iff, beq_eq_false_iff_ne, ne_eq]
      tauto
    simp [countWins, List.filter_cons, hb, h]

theorem winsToday_cons (d : String) (pid : Nat) (nm u : String)
    (txs : List DailyTrans) (pid' : Nat) (d' : String) :
    winsToday (⟨d, pid, nm, u, "win"⟩ :: txs) pid' d' =
      winsToday txs pid' d' + (if d = d' ∧ pid = pid' then 1 else 0) := by
  by_cases h : d = d' ∧ pid = pid'
  · obtain ⟨h1, h2⟩ := h
    subst h1; subst h2
    simp [winsToday, List.filter_cons]
  · have hb : ((⟨d, pid, nm, u, "win"⟩ : DailyTrans).date == d' &&
        (⟨d, pid, nm, u, "win"⟩ : DailyTrans).pid == pid' &&
        (⟨d, pid, nm, u, "win"⟩ : DailyTrans).ttype == "win") = false := by
      simp only [Bool.and_eq_false_iff, beq_eq_false_iff_ne, ne_eq]
      tauto
    simp [winsToday, List.filter_cons, hb, h]

/-- On a list whose keys are distinct, find? with a predicate that pins down
the key of a member returns exactly that member. -/
theorem find?_eq_some_of_unique_key {α κ : Type} [DecidableEq κ] (key : α → κ)
    {l : List α} (hnd : (l.map key).Nodup) {a : α} (ha : a ∈ l) {p : α → Bool}
    (hpa : p a = true) (hkey : ∀ x, p x = true → key x = key a) :
    l.find? p = some a := by
  induction l with
  | nil => cases ha
  | cons b t ih =>
    rw [List.map_cons, List.nodup_cons] at hnd
    by_cases hb : p b = true
    · rcases List.mem_cons.mp ha with rfl | hat
      · simp [List.find?_cons, hb]
      · exact absurd (by rw [hkey b hb]; exact List.mem_map_of_mem key hat) hnd.1
    · have hab : a ≠ b := fun h => hb (h ▸ hpa)
      have hat : a ∈ t := (List.mem_cons.mp ha).resolve_left hab
      have hb' : p b = false := by simpa using hb
      simp only [List.find?_cons, hb']
      exact ih hnd.2 hat

theorem invLookup_of_mem {s : ApiState} (hwf : wfInvKeys s) {e : InvEntry}
    (he : e ∈ s.inventory) : invLookup s.inventory e.pid e.date = some e := by
  refine find?_eq_some_of_unique_key (fun x : InvEntry => (x.pid, x.date)) ?_ he ?_ ?_
  · exact hwf
  · simp
  · intro x hx
    simp only [Bool.and_eq_true, beq_iff_eq] at hx
    simp [hx.1, hx.2]

theorem dailyInvLookup_of_mem {s : DailyState} (hwf : wfDailyInvKeys s)
    {di : DailyInvRow} (hdi : di ∈ s.dailyInventory) :
    s.dailyInventory.find? (fun x => x.date == di.date && x.pid == di.pid) = some di := by
  refine find?_eq_some_of_unique_key (fun x : DailyInvRow => (x.date, x.pid)) ?_ hdi ?_ ?_
  · exact hwf
  · simp
  · intro x hx
    simp only [Bool.and_eq_true, beq_iff_eq] at hx
    simp [hx.1, hx.2]

theorem pickChoice_mem {α : Type} {l : List α} {n : Nat} {a : α}
    (h : pickChoice l n = some a) : a ∈ l :=
  List.get?_mem h

theorem pickChoice_isSome {α : Type} {l : List α} (hl : l ≠ []) (n : Nat) :
    ∃ a, pickChoice l n = some a ∧ a ∈ l := by
  have hlen : 0 < l.length := List.length_pos.mpr hl
  have hmod : n % l.length < l.length := Nat.mod_lt _ hlen
  refine ⟨l.get ⟨n % l.length, hmod⟩, ?_, List.get_mem l _ hmod⟩
  simp [pickChoice, List.get?_eq_get hmod]

/-! Lemmas about the availability query. -/

theorem avail_row_spec {s : ApiState} {d : String} {row : AvailRow}
    (h : row ∈ getAvailablePrizes s d) :
    row.prize ∈ s.prizes ∧ row.prize.isActive = true ∧
    (∃ e, invLookup s.inventory row.prize.pid d = some e ∧
      e.remaining = row.remaining ∧ e.isUnlimited = row.isUnlimited ∧
      e.perDayLimit = row.perDayLimit) ∧
    row.todayWins = countWins s.wins row.prize.pid d ∧
    (0 < row.remaining ∨ row.isUnlimited = true) ∧
    (row.isUnlimited = true ∨ countWins s.wins row.prize.pid d < row.perDayLimit) := by
  rw [getAvailablePrizes, List.mem_filterMap] at h
  obtain ⟨p, hp, hf⟩ := h
  cases hinv : invLookup s.inventory p.pid d with
  | none =>
    simp only [hinv] at hf
    cases hf
  | some e =>
    simp only [hinv] at hf
    by_cases hcond : p.isActive = true ∧ (0 < e.remaining ∨ e.isUnlimited = true) ∧
        (e.isUnlimited = true ∨ countWins s.wins p.pid d < e.perDayLimit)
    · rw [if_pos hcond, Option.some.injEq] at hf
      subst hf
      exact ⟨hp, hcond.1, ⟨e, hinv, rfl, rfl, rfl⟩, rfl, hcond.2.1, hcond.2.2⟩
    · rw [if_neg hcond] at hf
      cases hf

theorem avail_row_intro {s : ApiState} {d : String} {p : Prize} {e : InvEntry}
    (hp : p ∈ s.prizes) (hact : p.isActive = true)
    (hinv : invLookup s.inventory p.pid d = some e)
    (hq : 0 < e.remaining ∨ e.isUnlimited = true)
    (hcap : e.isUnlimited = true ∨ countWins s.wins p.pid d < e.perDayLimit) :
    ∃ row ∈ getAvailablePrizes s d, row.prize = p ∧ row.remaining = e.remaining ∧
      row.isUnlimited = e.isUnlimited ∧ row.perDayLimit = e.perDayLimit ∧
      row.todayWins = countWins s.wins p.pid d := by
  refine ⟨{ prize := p, remaining := e.remaining, isUnlimited := e.isUnlimited,
            perDayLimit := e.perDayLimit, todayWins := countWins s.wins p.pid d,
            effectiveQuantity := if e.isUnlimited then 999 else e.remaining },
          ?_, rfl, rfl, rfl, rfl, rfl⟩
  rw [getAvailablePrizes, List.mem_filterMap]
  refine ⟨p, hp, ?_⟩
  simp only [hinv]
  rw [if_pos ⟨hact, hq, hcap⟩]

/-! Lemmas about the guarded decrement. -/

theorem decrementGuarded_mem {inv : List InvEntry} {pid : Nat} {d : String}
    {e' : InvEntry} (h : e' ∈ decrementGuarded inv pid d) :
    ∃ e ∈ inv, e'.pid = e.pid ∧ e'.date = e.date ∧
      e'.perDayLimit = e.perDayLimit ∧ e'.isUnlimited = e.isUnlimited ∧
      (e' = e ∨ (0 < e.remaining ∧ e'.remaining = e.remaining - 1)) := by
  rw [decrementGuarded, List.mem_map] at h
  obtain ⟨e, he, hmap⟩ := h
  refine ⟨e, he, ?_⟩
  by_cases hc : (e.pid == pid && e.date == d && decide (0 < e.remaining)) = true
  · rw [if_pos hc] at hmap
    subst hmap
    simp only [Bool.and_eq_true, beq_iff_eq, decide_eq_true_eq] at hc
    exact ⟨rfl, rfl, rfl, rfl, Or.inr ⟨hc.2, rfl⟩⟩
  · rw [if_neg hc] at hmap
    subst hmap
    exact ⟨rfl, rfl, rfl, rfl, Or.inl rfl⟩

theorem decrementGuarded_map_key (inv : List InvEntry) (pid : Nat) (d : String) :
    (decrementGuarded inv pid d).map (fun e => (e.pid, e.date)) =
      inv.map (fun e => (e.pid, e.date)) := by
  rw [decrementGuarded, List.map_map]
  refine List.map_congr_left (fun e _ => ?_)
  simp only [Function.comp_apply]
  split <;> rfl

/-! Lemmas about the allocator. -/

theorem capFilteredRows_sublist {l : List AvailRow} {p : AvailRow}
    (hp : p ∈ capFilteredRows l) : p ∈ l :=
  (List.mem_filter.mp hp).1

theorem rareRowsOf_sublist {l : List AvailRow} {p : AvailRow}
    (hp : p ∈ rareRowsOf l) : p ∈ l :=
  (List.mem_filter.mp hp).1

theorem ultraRareRowsOf_sublist {l : List AvailRow} {p : AvailRow}
    (hp : p ∈ ultraRareRowsOf l) : p ∈ l :=
  (List.mem_filter.mp hp).1

theorem weightedPoolOf_mem {l : List AvailRow} {p : AvailRow}
    (hp : p ∈ weightedPoolOf l) : p ∈ l := by
  rw [weightedPoolOf, List.mem_flatMap] at hp
  obtain ⟨q, hq, hrep⟩ := hp
  simp only [List.mem_replicate] at hrep
  exact hrep.2 ▸ hq

theorem capFilteredRows_eq_self {l : List AvailRow}
    (h : ∀ p ∈ l, p.isUnlimited = true ∨ p.todayWins < p.perDayLimit) :
    capFilteredRows l = l := by
  rw [capFilteredRows]
  refine List.filter_eq_self.mpr (fun p hp => ?_)
  rcases h p hp with hu | hw
  · simp [hu]
  · simp [Nat.not_le.mpr hw]

theorem selectRandomPrize_mem {avail : List AvailRow} {stats : TierStats}
    {coin : ℚ} {ent : Nat} {row : AvailRow}
    (h : selectRandomPrize avail stats coin ent = some row) : row ∈ avail := by
  simp only [selectRandomPrize] at h
  split at h
  · cases h
  split at h
  · cases h
  split at h
  · split at h
    · exact capFilteredRows_sublist (ultraRareRowsOf_sublist (pickChoice_mem h))
    · exact capFilteredRows_sublist (rareRowsOf_sublist (pickChoice_mem h))
  · split at h
    · cases h
    · exact capFilteredRows_sublist (weightedPoolOf_mem (pickChoice_mem h))

theorem selectRandomPrize_total {avail : List AvailRow} (stats : TierStats)
    (coin : ℚ) (ent : Nat) (hne : avail ≠ [])
    (hok : ∀ p ∈ avail, p.isUnlimited = true ∨ p.todayWins < p.perDayLimit) :
    ∃ row, selectRandomPrize avail stats coin ent = some row ∧ row ∈ avail := by
  have hfe : capFilteredRows avail = avail := capFilteredRows_eq_self hok
  have hne' : ¬avail.isEmpty = true := by simp [List.isEmpty_iff, hne]
  simp only [selectRandomPrize, hfe]
  rw [if_neg hne', if_neg hne']
  split
  case isTrue hcond =>
    split
    case isTrue hu =>
      obtain ⟨a, ha, hmem⟩ := @pickChoice_isSome AvailRow
        (ultraRareRowsOf avail) (by simpa [List.isEmpty_iff] using hu) ent
      exact ⟨a, ha, ultraRareRowsOf_sublist hmem⟩
    case isFalse hu =>
      have hr : ¬(rareRowsOf avail).isEmpty = true := by
        rcases hcond.1 with h | h
        · exact h
        · exact absurd h hu
      obtain ⟨a, ha, hmem⟩ := @pickChoice_isSome AvailRow
        (rareRowsOf avail) (by simpa [List.isEmpty_iff] using hr) ent
      exact ⟨a, ha, rareRowsOf_sublist hmem⟩
  case isFalse hcond =>
    have hwne : weightedPoolOf avail ≠ [] := by
      obtain ⟨x, t, rfl⟩ := List.exists_cons_of_ne_nil hne
      rw [weightedPoolOf, List.flatMap_cons]
      intro hcontra
      have := congrArg List.length hcontra
      simp only [List.length_append, List.length_replicate, List.length_nil] at this
      omega
    rw [if_neg (by simpa [List.isEmpty_iff] using hwne)]
    obtain ⟨a, ha, hmem⟩ := pickChoice_isSome hwne ent
    exact ⟨a, ha, weightedPoolOf_mem hmem⟩

/-! Shape lemmas for the two award handlers. -/

/-- A spin either leaves the state unchanged or awards one available row:
one win is appended and, unless the row is unlimited, the guarded decrement
runs for its (prize, today) key. -/
theorem spinWheel_state (s : ApiState) (selectedPrizeId : Nat) (user : String)
    (today : String) (coin : ℚ) (ent : Nat) :
    (spinWheel s selectedPrizeId user today coin ent).2 = s ∨
    ∃ row ∈ getAvailablePrizes s today,
      (spinWheel s selectedPrizeId user today coin ent).2 =
        (if row.isUnlimited then
          { s with wins := ⟨user, row.prize.pid, today⟩ :: s.wins }
         else
          { s with wins := ⟨user, row.prize.pid, today⟩ :: s.wins,
                   inventory := decrementGuarded s.inventory row.prize.pid today }) := by
  by_cases h0 : selectedPrizeId = 0
  · left
    rw [spinWheel, if_pos h0]
  rw [spinWheel, if_neg h0]
  cases hfind : (getAvailablePrizes s today).find? (fun p => p.prize.pid == selectedPrizeId) with
  | some row =>
    right
    refine ⟨row, List.mem_of_find?_eq_some hfind, ?_⟩
    simp only [hfind]
  | none =>
    simp only [hfind]
    by_cases hem : (getAvailablePrizes s today).isEmpty = true
    · left
      simp only [if_pos hem]
    · simp only [if_neg hem]
      cases hsel : selectRandomPrize (getAvailablePrizes s today) (tierStatsOf s today)
          coin ent with
      | none =>
        left
        simp only [hsel]
      | some row =>
        right
        refine ⟨row, selectRandomPrize_mem hsel, ?_⟩
        simp only [hsel]

/-- A successful finalize awards the reserved prize: one win appended, the
guarded decrement run, the reservation flipped; every other outcome leaves
the state unchanged. -/
theorem finalizePrize_state (s : ApiState) (rid key user : String)
    (now : Nat) (today : String) :
    (finalizePrize s rid key user now today).2 = s ∨
    ∃ resv,
      s.reservations.find? (fun r => r.rid == rid && r.key == key &&
        r.status == RStatus.reserved && decide (now < r.expiresAt)) = some resv ∧
      ∃ inv, invLookup s.inventory resv.pid today = some inv ∧
        0 < inv.remaining ∧
        countWins s.wins resv.pid today < effectiveLimit inv.perDayLimit ∧
        (finalizePrize s rid key user now today).2 =
          { s with wins := ⟨user, resv.pid, today⟩ :: s.wins,
                   inventory := decrementGuarded s.inventory resv.pid today,
                   reservations := s.reservations.map (fun r =>
                     if r.rid == rid && r.status == RStatus.reserved
                     then { r with status := RStatus.finalized } else r) } := by
  rw [finalizePrize]
  split
  · left; rfl
  next resv hres =>
    split
    · left; rfl
    next pd hpd =>
      split
      · left; rfl
      next inv hinv =>
        split
        · left; rfl
        next h1 =>
          split
          · left; rfl
          next h2 =>
            split
            next h3 =>
              right
              exact ⟨resv, hres, inv, hinv, h3, Nat.not_le.mp h2, rfl⟩
            next h3 =>
              left; rfl

/-! Preservation of the invariants by single award operations. -/

theorem capInv_insert (s : ApiState) (pid : Nat) (user today : String)
    (inv' : List InvEntry) (hwf : wfInvKeys s) (hcap : capInvApi s)
    (hshape : ∀ e' ∈ inv', ∃ e ∈ s.inventory, e'.pid = e.pid ∧ e'.date = e.date ∧
      e'.perDayLimit = e.perDayLimit ∧ e'.isUnlimited = e.isUnlimited)
    (hcnt : ∀ e, invLookup s.inventory pid today = some e → e.isUnlimited = false →
      countWins s.wins pid today < e.perDayLimit) :
    capInvApi { s with wins := ⟨user, pid, today⟩ :: s.wins, inventory := inv' } := by
  intro e' he' hunl'
  obtain ⟨e, he, hpid, hdate, hlimeq, hunleq⟩ := hshape e' he'
  have hunl : e.isUnlimited = false := by rw [← hunleq]; exact hunl'
  show countWins (⟨user, pid, today⟩ :: s.wins) e'.pid e'.date ≤ e'.perDayLimit
  rw [hpid, hdate, hlimeq, countWins_cons]
  by_cases hk : pid = e.pid ∧ today = e.date
  · rw [if_pos hk]
    have hel : invLookup s.inventory e.pid e.date = some e := invLookup_of_mem hwf he
    rw [← hk.1, ← hk.2] at hel
    have := hcnt e hel hunl
    rw [← hk.1, ← hk.2]
    omega
  · rw [if_neg hk, Nat.add_zero]
    exact hcap e he hunl

theorem decrementGuarded_wf {s : ApiState} (hwf : wfInvKeys s) (pid : Nat) (d : String) :
    ((decrementGuarded s.inventory pid d).map (fun e => (e.pid, e.date))).Nodup := by
  rw [decrementGuarded_map_key]
  exact hwf

theorem decrementGuarded_lim {s : ApiState} (hlim : limitsPos s) (pid : Nat) (d : String) :
    ∀ e' ∈ decrementGuarded s.inventory pid d, 1 ≤ e'.perDayLimit := by
  intro e' he'
  obtain ⟨e, he, _, _, hlimeq, _, _⟩ := decrementGuarded_mem he'
  rw [hlimeq]
  exact hlim e he

theorem spinWheel_preserves (s : ApiState) (selectedPrizeId : Nat)
    (user today : String) (coin : ℚ) (ent : Nat)
    (hwf : wfInvKeys s) (hlim : limitsPos s) (hcap : capInvApi s) :
    wfInvKeys (spinWheel s selectedPrizeId user today coin ent).2 ∧
    limitsPos (spinWheel s selectedPrizeId user today coin ent).2 ∧
    capInvApi (spinWheel s selectedPrizeId user today coin ent).2 := by
  rcases spinWheel_state s selectedPrizeId user today coin ent with heq | ⟨row, hrow, heq⟩
  · rw [heq]; exact ⟨hwf, hlim, hcap⟩
  · rw [heq]
    obtain ⟨_, _, ⟨e₀, he₀, hrem, hunl, hlimr⟩, hwins, _, hcapr⟩ := avail_row_spec hrow
    have hcnt : ∀ e, invLookup s.inventory row.prize.pid today = some e →
        e.isUnlimited = false → countWins s.wins row.prize.pid today < e.perDayLimit := by
      intro e hee hef
      rw [he₀] at hee
      cases hee
      rcases hcapr with hu | hw
      · rw [hunl] at hef; cases hef.symm.trans hu
      · rw [hlimr]; exact hw
    cases hu : row.isUnlimited with
    | true =>
      rw [if_pos rfl]
      exact ⟨hwf, hlim,
        capInv_insert s row.prize.pid user today s.inventory hwf hcap
          (fun e' he' => ⟨e', he', rfl, rfl, rfl, rfl⟩) hcnt⟩
    | false =>
      rw [if_neg (by simp)]
      refine ⟨decrementGuarded_wf hwf _ _, decrementGuarded_lim hlim _ _, ?_⟩
      exact capInv_insert s row.prize.pid user today _ hwf hcap
        (fun e' he' => by
          obtain ⟨e, he, hpid, hdate, hlimeq, hunleq, _⟩ := decrementGuarded_mem he'
          exact ⟨e, he, hpid, hdate, hlimeq, hunleq⟩) hcnt

theorem finalizePrize_preserves (s : ApiState) (rid key user : String)
    (now : Nat) (today : String)
    (hwf : wfInvKeys s) (hlim : limitsPos s) (hcap : capInvApi s) :
    wfInvKeys (finalizePrize s rid key user now today).2 ∧
    limitsPos (finalizePrize s rid key user now today).2 ∧
    capInvApi (finalizePrize s rid key user now today).2 := by
  rcases finalizePrize_state s rid key user now today with
    heq | ⟨resv, _, inv, hinv, _, hcnt0, heq⟩
  · rw [heq]; exact ⟨hwf, hlim, hcap⟩
  · rw [heq]
    have hmem : inv ∈ s.inventory := List.mem_of_find?_eq_some hinv
    have heff : countWins s.wins resv.pid today < inv.perDayLimit := by
      have h1 : 1 ≤ inv.perDayLimit := hlim inv hmem
      have h2 : effectiveLimit inv.perDayLimit = inv.perDayLimit := by
        rw [effectiveLimit, if_neg (by omega)]
      omega
    have hcnt : ∀ e, invLookup s.inventory resv.pid today = some e →
        e.isUnlimited = false → countWins s.wins resv.pid today < e.perDayLimit := by
      intro e hee _
      rw [hinv] at hee
      cases hee
      exact heff
    refine ⟨decrementGuarded_wf hwf _ _, decrementGuarded_lim hlim _ _, ?_⟩
    exact capInv_insert s resv.pid user today _ hwf hcap
      (fun e' he' => by
        obtain ⟨e, he, hpid, hdate, hlimeq, hunleq, _⟩ := decrementGuarded_mem he'
        exact ⟨e, he, hpid, hdate, hlimeq, hunleq⟩) hcnt

theorem applyOps_invariants (s : ApiState) (ops : List AwardOp)
    (hwf : wfInvKeys s) (hlim : limitsPos s) (hcap : capInvApi s) :
    wfInvKeys (applyOps s ops) ∧ limitsPos (applyOps s ops) ∧
      capInvApi (applyOps s ops) := by
  induction ops generalizing s with
  | nil => exact ⟨hwf, hlim, hcap⟩
  | cons op t ih =>
    rw [applyOps, List.foldl_cons]
    have hstep : wfInvKeys (applyOp s op) ∧ limitsPos (applyOp s op) ∧
        capInvApi (applyOp s op) := by
      cases op with
      | finalize rid key user now today =>
        exact finalizePrize_preserves s rid key user now today hwf hlim hcap
      | spin pid user today coin ent =>
        exact spinWheel_preserves s pid user today coin ent hwf hlim hcap
    exact ih (applyOp s op) hstep.1 hstep.2.1 hstep.2.2

/-! No-oversell preservation for the backend-api handlers. -/

theorem decrementGuarded_nonneg {inv : List InvEntry}
    (h : ∀ e ∈ inv, 0 ≤ e.remaining) (pid : Nat) (d : String) :
    ∀ e' ∈ decrementGuarded inv pid d, 0 ≤ e'.remaining := by
  intro e' he'
  obtain ⟨e, he, _, _, _, _, hrem⟩ := decrementGuarded_mem he'
  rcases hrem with rfl | ⟨hpos, hdec⟩
  · exact h _ he
  · rw [hdec]; omega

theorem spinWheel_nonneg (s : ApiState) (selectedPrizeId : Nat)
    (user today : String) (coin : ℚ) (ent : Nat) (h : nonnegInvApi s) :
    nonnegInvApi (spinWheel s selectedPrizeId user today coin ent).2 := by
  rcases spinWheel_state s selectedPrizeId user today coin ent with heq | ⟨row, _, heq⟩
  · rw [heq]; exact h
  · rw [heq]
    split
    · exact h
    · exact decrementGuarded_nonneg h _ _

theorem finalizePrize_nonneg (s : ApiState) (rid key user : String)
    (now : Nat) (today : String) (h : nonnegInvApi s) :
    nonnegInvApi (finalizePrize s rid key user now today).2 := by
  rcases finalizePrize_state s rid key user now today with heq | ⟨resv, _, _, _, _, _, heq⟩
  · rw [heq]; exact h
  · rw [heq]
    exact decrementGuarded_nonneg h _ _

/-! Lemmas about the daily backend. -/

theorem dailyAvail_row_spec {s : DailyState} {d : String} {row : DailyAvailRow}
    (h : row ∈ getAvailablePrizesDaily s d) :
    ∃ dp ∈ s.dailyPrizes, dp.date = d ∧ row.pid = dp.pid ∧
      row.dailyLimit = dp.dailyLimit ∧
      row.winsToday = winsToday s.transactions dp.pid d ∧
      (∃ di, s.dailyInventory.find? (fun x => x.date == dp.date && x.pid == dp.pid) =
          some di ∧ di.remaining = row.remaining) ∧
      0 < row.remaining ∧ row.winsToday < row.dailyLimit := by
  rw [getAvailablePrizesDaily, List.mem_filterMap] at h
  obtain ⟨dp, hdp, hf⟩ := h
  by_cases hd : dp.date ≠ d
  · rw [if_pos hd] at hf; cases hf
  rw [if_neg hd] at hf
  push_neg at hd
  cases hdi : s.dailyInventory.find? (fun di => di.date == dp.date && di.pid == dp.pid) with
  | none =>
    simp only [hdi] at hf
    cases hf
  | some di =>
    simp only [hdi] at hf
    by_cases hcond : 0 < di.remaining ∧ winsToday s.transactions dp.pid d < dp.dailyLimit
    · rw [if_pos hcond, Option.some.injEq] at hf
      subst hf
      exact ⟨dp, hdp, hd, rfl, rfl, rfl, ⟨di, hdi, rfl⟩, hcond.1, hcond.2⟩
    · rw [if_neg hcond] at hf; cases hf

/-- A daily spin either leaves the state unchanged or consumes one available
row whose prize id is the submitted one. -/
theorem spinWheelDaily_state (s : DailyState) (selectedPrizeId : Nat)
    (user d : String) :
    (spinWheelDaily s selectedPrizeId user d).2 = s ∨
    ∃ row ∈ getAvailablePrizesDaily s d, row.pid = selectedPrizeId ∧
      (spinWheelDaily s selectedPrizeId user d).2 =
        (consumePrize s row.pid row.name d user).2 := by
  by_cases h0 : selectedPrizeId = 0
  · left; rw [spinWheelDaily, if_pos h0]
  rw [spinWheelDaily, if_neg h0]
  cases hfind : (getAvailablePrizesDaily s d).find? (fun p => p.pid == selectedPrizeId) with
  | none => left; rfl
  | some row =>
    right
    have hmem := List.mem_of_find?_eq_some hfind
    have hid : row.pid = selectedPrizeId := by
      have := List.find?_some hfind
      simpa using this
    exact ⟨row, hmem, hid, rfl⟩

theorem consumePrize_transactions (s : DailyState) (pid : Nat)
    (nm d user : String) :
    (consumePrize s pid nm d user).2.transactions =
      ⟨d, pid, nm, user, "win"⟩ :: s.transactions := rfl

theorem consumePrize_dailyPrizes (s : DailyState) (pid : Nat)
    (nm d user : String) :
    (consumePrize s pid nm d user).2.dailyPrizes = s.dailyPrizes := rfl

theorem consumePrize_dailyInventory (s : DailyState) (pid : Nat)
    (nm d user : String) :
    (consumePrize s pid nm d user).2.dailyInventory =
      s.dailyInventory.map (fun di =>
        if di.date == d && di.pid == pid
        then { di with remaining := di.remaining - 1 } else di) := rfl

theorem spinWheelDaily_capInv (s : DailyState) (selectedPrizeId : Nat)
    (user d : String) (hwfp : wfDailyPrizeKeys s) (hcap : capInvDaily s) :
    capInvDaily (spinWheelDaily s selectedPrizeId user d).2 := by
  rcases spinWheelDaily_state s selectedPrizeId user d with heq | ⟨row, hrow, _, heq⟩
  · rw [heq]; exact hcap
  · rw [heq]
    obtain ⟨dp₀, hdp₀, hdate₀, hpid₀, hlim₀, hwins₀, _, _, hcapr⟩ := dailyAvail_row_spec hrow
    intro dp hdp
    rw [consumePrize_dailyPrizes] at hdp
    show winsToday (consumePrize s row.pid row.name d user).2.transactions
      dp.pid dp.date ≤ dp.dailyLimit
    rw [consumePrize_transactions, winsToday_cons]
    by_cases hk : d = dp.date ∧ row.pid = dp.pid
    · rw [if_pos hk]
      have hkey : (fun x : DailyPrizeRow => (x.date, x.pid)) dp =
          (fun x : DailyPrizeRow => (x.date, x.pid)) dp₀ := by
        show (dp.date, dp.pid) = (dp₀.date, dp₀.pid)
        rw [← hk.1, ← hk.2, hpid₀, hdate₀]
      have hdpeq : dp = dp₀ :=
        List.inj_on_of_nodup_map hwfp hdp hdp₀ hkey
      subst hdpeq
      have h1 : winsToday s.transactions dp.pid d < dp.dailyLimit := by
        rw [← hwins₀, ← hlim₀]
        exact hcapr
      rw [hdate₀]
      omega
    · rw [if_neg hk, Nat.add_zero]
      exact hcap dp hdp

theorem spinWheelDaily_nonneg (s : DailyState) (selectedPrizeId : Nat)
    (user d : String) (hwfi : wfDailyInvKeys s) (hnn : nonnegInvDaily s) :
    nonnegInvDaily (spinWheelDaily s selectedPrizeId user d).2 := by
  rcases spinWheelDaily_state s selectedPrizeId user d with heq | ⟨row, hrow, _, heq⟩
  · rw [heq]; exact hnn
  · rw [heq]
    obtain ⟨dp₀, _, hdate₀, hpid₀, _, _, ⟨di₀, hdi₀, hrem₀⟩, hpos, _⟩ :=
      dailyAvail_row_spec hrow
    intro di' hdi'
    rw [consumePrize_dailyInventory, List.mem_map] at hdi'
    obtain ⟨di, hdi, hmap⟩ := hdi'
    by_cases hc : (di.date == d && di.pid == row.pid) = true
    · rw [if_pos hc] at hmap
      subst hmap
      simp only [Bool.and_eq_true, beq_iff_eq] at hc
      have hfound : s.dailyInventory.find?
          (fun x => x.date == dp₀.date && x.pid == dp₀.pid) = some di := by
        refine find?_eq_some_of_unique_key (fun x : DailyInvRow => (x.date, x.pid))
          ?_ hdi ?_ ?_
        · exact hwfi
        · simp only [Bool.and_eq_true, beq_iff_eq]
          rw [hc.1, hc.2, hdate₀, hpid₀]
          exact ⟨rfl, rfl⟩
        · intro x hx
          simp only [Bool.and_eq_true, beq_iff_eq] at hx
          show (x.date, x.pid) = (di.date, di.pid)
          rw [hx.1, hx.2, hc.1, hc.2, hdate₀, hpid₀]
      have : di = di₀ := by
        rw [hfound] at hdi₀
        exact (Option.some.injEq _ _).mp hdi₀
      subst this
      show 0 ≤ di.remaining - 1
      rw [hrem₀]
      omega
    · rw [if_neg hc] at hmap
      subst hmap
      exact hnn di hdi

theorem applyDailySpins_capInv (s : DailyState) (ops : List DailySpinArgs)
    (hwfp : wfDailyPrizeKeys s) (hcap : capInvDaily s) :
    capInvDaily (applyDailySpins s ops) := by
  induction ops generalizing s with
  | nil => exact hcap
  | cons op t ih =>
    rw [applyDailySpins, List.foldl_cons]
    have hwfp' : wfDailyPrizeKeys (spinWheelDaily s op.pid op.user op.date).2 := by
      rcases spinWheelDaily_state s op.pid op.user op.date with heq | ⟨row, _, _, heq⟩
      · rw [heq]; exact hwfp
      · rw [heq]
        show ((consumePrize s row.pid row.name op.date op.user).2.dailyPrizes.map
          (fun dp => (dp.date, dp.pid))).Nodup
        rw [consumePrize_dailyPrizes]
        exact hwfp
    exact ih _ hwfp' (spinWheelDaily_capInv s op.pid op.user op.date hwfp hcap)

/-! Case analysis of finalize used by the idempotency claims. -/

/-- Every finalize call either fails, leaving the state untouched, or
succeeds on the found reservation, appending the win, decrementing the
inventory and flipping every still-reserved row with this reservation id. -/
theorem finalizePrize_spec (s : ApiState) (rid key user : String)
    (now : Nat) (today : String) :
    ((finalizePrize s rid key user now today).2 = s ∧
      ∀ aid, (finalizePrize s rid key user now today).1 ≠ FinalizeOutcome.success aid) ∨
    (∃ resv,
      s.reservations.find? (fun r => r.rid == rid && r.key == key &&
        r.status == RStatus.reserved && decide (now < r.expiresAt)) = some resv ∧
      (∃ aid, (finalizePrize s rid key user now today).1 = FinalizeOutcome.success aid) ∧
      (finalizePrize s rid key user now today).2 =
        { s with wins := ⟨user, resv.pid, today⟩ :: s.wins,
                 inventory := decrementGuarded s.inventory resv.pid today,
                 reservations := s.reservations.map (fun r =>
                   if r.rid == rid && r.status == RStatus.reserved
                   then { r with status := RStatus.finalized } else r) }) := by
  rw [finalizePrize]
  split
  · exact Or.inl ⟨rfl, by intro aid h; cases h⟩
  next resv hres =>
    split
    · exact Or.inl ⟨rfl, by intro aid h; cases h⟩
    split
    · exact Or.inl ⟨rfl, by intro aid h; cases h⟩
    split
    · exact Or.inl ⟨rfl, by intro aid h; cases h⟩
    split
    · exact Or.inl ⟨rfl, by intro aid h; cases h⟩
    split
    · exact Or.inr ⟨resv, hres, ⟨_, rfl⟩, rfl⟩
    · exact Or.inl ⟨rfl, by intro aid h; cases h⟩

/-- If no reservation row matches (id, key, status 'reserved', unexpired),
finalize is the typed rejection and the state is untouched. -/
theorem finalizePrize_rejected (s : ApiState) (rid key user : String)
    (now : Nat) (today : String)
    (h : ∀ r ∈ s.reservations, r.rid = rid → r.key = key →
      r.status ≠ RStatus.reserved ∨ r.expiresAt ≤ now) :
    finalizePrize s rid key user now today = (.invalidOrExpired, s) := by
  have hnone : s.reservations.find? (fun r => r.rid == rid && r.key == key &&
      r.status == RStatus.reserved && decide (now < r.expiresAt)) = none := by
    rw [List.find?_eq_none]
    intro r hr hpred
    simp only [Bool.and_eq_true, beq_iff_eq, decide_eq_true_eq] at hpred
    rcases h r hr hpred.1.1.1 hpred.1.1.2 with hst | hexp
    · exact hst hpred.1.2
    · omega
  rw [finalizePrize, hnone]

/-- After mapping the finalize status-flip over the reservations, no row
with this reservation id is still 'reserved'. -/
theorem find?_after_flip (rs : List Reservation) (rid key : String) (now' : Nat) :
    (rs.map (fun r => if r.rid == rid && r.status == RStatus.reserved
        then { r with status := RStatus.finalized } else r)).find?
      (fun r => r.rid == rid && r.key == key &&
        r.status == RStatus.reserved && decide (now' < r.expiresAt)) = none := by
  rw [List.find?_eq_none]
  intro r' hr'
  rw [List.mem_map] at hr'
  obtain ⟨r, _, hmap⟩ := hr'
  by_cases hc : (r.rid == rid && r.status == RStatus.reserved) = true
  · rw [if_pos hc] at hmap
    subst hmap
    simp
  · rw [if_neg hc] at hmap
    subst hmap
    intro hpred
    simp only [Bool.and_eq_true, beq_iff_eq] at hpred hc
    exact hc ⟨hpred.1.1.1, hpred.1.2⟩

/-- Finalizing twice with the same reservation id: after a success, any
further finalize with that id is the typed invalid-or-expired rejection and
changes nothing. -/
theorem finalizePrize_at_most_once (s : ApiState) (rid key user : String)
    (now : Nat) (today : String) (aid : String)
    (h : (finalizePrize s rid key user now today).1 = FinalizeOutcome.success aid)
    (key' user' : String) (now' : Nat) (today' : String) :
    finalizePrize (finalizePrize s rid key user now today).2 rid key' user' now' today' =
      (.invalidOrExpired, (finalizePrize s rid key user now today).2) := by
  rcases finalizePrize_spec s rid key user now today with ⟨_, hne⟩ | ⟨resv, _, _, hst⟩
  · exact absurd h (hne aid)
  · rw [finalizePrize]
    have : (finalizePrize s rid key user now today).2.reservations.find?
        (fun r => r.rid == rid && r.key == key' &&
          r.status == RStatus.reserved && decide (now' < r.expiresAt)) = none := by
      rw [hst]
      exact find?_after_flip s.reservations rid key' now'
    rw [this]

/-! The replay path of reserve, and nonnegativity of consume under the
sequential guard. -/

theorem reservePrize_replay (s : ApiState) (idempotencyKey user : String)
    (now : Nat) (today : String) (coin : ℚ) (ent : Nat) (coin₂ : ℚ) (ent₂ : Nat)
    (pl : ResponsePayload)
    (h : checkExistingReservation s idempotencyKey now = some pl) :
    reservePrize s idempotencyKey user now today coin ent coin₂ ent₂ =
      (.replay pl, s) := by
  rw [reservePrize, h]

theorem consumePrize_nonneg (s : DailyState) (pid : Nat) (nm d user : String)
    (h1 : nonnegInvDaily s)
    (h2 : ∀ di ∈ s.dailyInventory, di.date = d → di.pid = pid → 1 ≤ di.remaining) :
    nonnegInvDaily (consumePrize s pid nm d user).2 := by
  intro di' hdi'
  rw [consumePrize_dailyInventory, List.mem_map] at hdi'
  obtain ⟨di, hdi, hmap⟩ := hdi'
  by_cases hc : (di.date == d && di.pid == pid) = true
  · rw [if_pos hc] at hmap
    subst hmap
    simp only [Bool.and_eq_true, beq_iff_eq] at hc
    have := h2 di hdi hc.1 hc.2
    show 0 ≤ di.remaining - 1
    omega
  · rw [if_neg hc] at hmap
    subst hmap
    exact h1 di hdi

/-! The claims. -/

/-- C1: for every prize P and date D, after any sequence of award operations
(finalize or spin calls) starting from a state satisfying the schema
well-formedness (unique inventory keys, per-day limits at least 1) and the
cap invariant, the number of win records for (P, D) stays at most
per_day_limit(P, D) unless the inventory record is is_unlimited — proved for
the backend-api operation sequences and for the daily backend's spin
sequences. -/
theorem c1_cap_invariant_sequences :
    (∀ (s : ApiState) (ops : List AwardOp), wfInvKeys s → limitsPos s →
      capInvApi s → capInvApi (applyOps s ops)) ∧
    (∀ (s : DailyState) (ops : List DailySpinArgs), wfDailyPrizeKeys s →
      capInvDaily s → capInvDaily (applyDailySpins s ops)) :=
  ⟨fun s ops hwf hlim hcap => (applyOps_invariants s ops hwf hlim hcap).2.2,
   fun s ops hwfp hcap => applyDailySpins_capInv s ops hwfp hcap⟩

theorem c1_cap_invariant_sequences_witness :
    capInvApi (applyOps c1ApiState c1Ops) ∧
    capInvDaily (applyDailySpins c1DailyState c1DailyOps) :=
  ⟨c1_cap_invariant_sequences.1 c1ApiState c1Ops (by decide) (by decide) (by decide),
   c1_cap_invariant_sequences.2 c1DailyState c1DailyOps (by decide) (by decide)⟩

/-- C2 counterexample: the claim quantifies over every state with
nonnegative inventory and asserts that each of consume_prize, finalize and
spin preserves nonnegativity; but consume_prize decrements without any
remaining_quantity > 0 guard (daily_database_backend.py:754-759), so calling
it on a prize whose remaining_quantity is already 0 drives the ledger to -1. -/
theorem c2_counterexample :
    nonnegInvDaily c2DailyState ∧
    ¬ nonnegInvDaily (consumePrize c2DailyState 1 "Gift A" "2025-10-01" "u1").2 := by
  constructor
  · decide
  · decide

/-- C2 (amended): finalize and both spin endpoints preserve
remaining_quantity >= 0 from any such state (their decrements are guarded by
remaining_quantity > 0, directly in SQL for backend-api and by the
availability check for the daily backend); consume_prize itself decrements
unconditionally and preserves nonnegativity only when the consumed (date,
prize) rows still hold at least one unit — which the daily spin endpoint
guarantees by only consuming listed-available prizes. -/
theorem c2_no_oversell_amended :
    (∀ (s : ApiState) (rid key user : String) (now : Nat) (today : String),
      nonnegInvApi s → nonnegInvApi (finalizePrize s rid key user now today).2) ∧
    (∀ (s : ApiState) (pid : Nat) (user today : String) (coin : ℚ) (ent : Nat),
      nonnegInvApi s → nonnegInvApi (spinWheel s pid user today coin ent).2) ∧
    (∀ (s : DailyState) (pid : Nat) (user d : String),
      wfDailyInvKeys s → nonnegInvDaily s →
      nonnegInvDaily (spinWheelDaily s pid user d).2) ∧
    (∀ (s : DailyState) (pid : Nat) (nm d user : String),
      nonnegInvDaily s →
      (∀ di ∈ s.dailyInventory, di.date = d → di.pid = pid → 1 ≤ di.remaining) →
      nonnegInvDaily (consumePrize s pid nm d user).2) :=
  ⟨fun s rid key user now today h => finalizePrize_nonneg s rid key user now today h,
   fun s pid user today coin ent h => spinWheel_nonneg s pid user today coin ent h,
   fun s pid user d hwf h => spinWheelDaily_nonneg s pid user d hwf h,
   fun s pid nm d user h1 h2 => consumePrize_nonneg s pid nm d user h1 h2⟩

theorem c2_no_oversell_amended_witness :
    nonnegInvApi (finalizePrize c2ApiState "r1" "k1" "u1" 100 "2025-10-01").2 ∧
    nonnegInvApi (spinWheel c2ApiState 2 "u2" "2025-10-01" (mkRat 3 4) 0).2 ∧
    nonnegInvDaily (spinWheelDaily c2GoodDailyState 1 "u1" "2025-10-01").2 ∧
    nonnegInvDaily (consumePrize c2GoodDailyState 1 "Gift A" "2025-10-01" "u1").2 :=
  ⟨c2_no_oversell_amended.1 c2ApiState "r1" "k1" "u1" 100 "2025-10-01" (by decide),
   c2_no_oversell_amended.2.1 c2ApiState 2 "u2" "2025-10-01" (mkRat 3 4) 0 (by decide),
   c2_no_oversell_amended.2.2.1 c2GoodDailyState 1 "u1" "2025-10-01" (by decide) (by decide),
   c2_no_oversell_amended.2.2.2 c2GoodDailyState 1 "Gift A" "2025-10-01" "u1"
     (by decide) (by decide)⟩

/-- C4 counterexample: reserving under key "abc" and then calling reserve
again with the same key returns the same reservation id, but not the
identical prize object: the replay reconstructs the prize from the stored
row with only id/name/emoji/category (check_existing_reservation,
backend-api.py:2715-2722), while the first response embedded the full
fifteen-column availability row.  The response signature is the HMAC of the
canonical JSON of these payloads, so the differing prize objects also give
the two calls different signature inputs. -/
theorem c4_counterexample :
    (freshPayload? c4First.1).map (fun pl => pl.reservationId) =
      c4SecondPayload.map (fun pl => pl.reservationId) ∧
    (freshPayload? c4First.1).map (fun pl => pl.sectorIndex) =
      c4SecondPayload.map (fun pl => pl.sectorIndex) ∧
    c4SecondPayload.isSome = true ∧
    (freshPayload? c4First.1).map (fun pl => pl.prize) ≠
      c4SecondPayload.map (fun pl => pl.prize) := by
  refine ⟨by decide, by decide, by decide, by decide⟩

/-- C4 (amended): a second reserve call with a key that has a non-expired
reservation replays that reservation — same reservation id, sector data and
prize id, drawn from the stored row, with no new draw and no state change —
but the replayed payload reconstructs the prize object with only
id/name/emoji/category and re-signs it, so the full prize payload and
signature need not be byte-identical to the first response. -/
theorem c4_reserve_idempotent_amended (s : ApiState) (key user : String)
    (now : Nat) (today : String) (coin : ℚ) (ent : Nat) (coin₂ : ℚ) (ent₂ : Nat)
    (pl : ResponsePayload)
    (h : checkExistingReservation s key now = some pl) :
    reservePrize s key user now today coin ent coin₂ ent₂ = (.replay pl, s) ∧
    ∃ r ∈ s.reservations, r.key = key ∧ now < r.expiresAt ∧
      pl.reservationId = r.rid ∧ pl.sectorIndex = r.sectorIndex ∧
      pl.sectorCenter = r.sectorCenter ∧ pl.serverTimestamp = r.reservedAt ∧
      ∃ p, prizeLookup s.prizes r.pid = some p ∧
        pl.prize = miniPrizeJson r.pid p.name p.emoji (tierName p.tier) := by
  refine ⟨reservePrize_replay s key user now today coin ent coin₂ ent₂ pl h, ?_⟩
  rw [checkExistingReservation] at h
  split at h
  · cases h
  next r hr =>
    have hmem := List.mem_of_find?_eq_some hr
    have hpred := List.find?_some hr
    simp only [Bool.and_eq_true, beq_iff_eq, decide_eq_true_eq] at hpred
    cases hp : prizeLookup s.prizes r.pid with
    | none =>
      rw [hp] at h
      cases h
    | some p =>
      rw [hp, Option.some.injEq] at h
      subst h
      exact ⟨r, hmem, hpred.1.1, hpred.1.2, rfl, rfl, rfl, rfl, p, hp, rfl⟩

theorem c4_reserve_idempotent_amended_witness :
    reservePrize c4First.2 "abc" "u2" 1100 "2025-10-01" (mkRat 1 4) 1 (mkRat 1 4) 1 =
      (.replay c4ReplayPl, c4First.2) :=
  (c4_reserve_idempotent_amended c4First.2 "abc" "u2" 1100 "2025-10-01"
    (mkRat 1 4) 1 (mkRat 1 4) 1 c4ReplayPl (by decide)).1

/-- C5: finalize succeeds at most once per reservation and never
double-awards.  (a) When no reservation row matches the id and key with
status 'reserved' and an unexpired TTL — in particular when the reservation
is expired or already finalized — finalize returns the typed
invalid-or-expired rejection and the state (win journal, inventory ledger,
reservations) is unchanged.  (b) Every non-success outcome leaves the state
unchanged: no win record inserted, no quantity decremented.  (c) After a
successful finalize, repeating the call with the same reservation id is the
typed rejection and changes nothing. -/
theorem c5_finalize_at_most_once :
    (∀ (s : ApiState) (rid key user : String) (now : Nat) (today : String),
      (∀ r ∈ s.reservations, r.rid = rid → r.key = key →
        r.status ≠ RStatus.reserved ∨ r.expiresAt ≤ now) →
      finalizePrize s rid key user now today = (.invalidOrExpired, s)) ∧
    (∀ (s : ApiState) (rid key user : String) (now : Nat) (today : String),
      (∀ aid, (finalizePrize s rid key user now today).1 ≠ FinalizeOutcome.success aid) →
      (finalizePrize s rid key user now today).2 = s) ∧
    (∀ (s : ApiState) (rid key user : String) (now : Nat) (today : String) (aid : String),
      (finalizePrize s rid key user now today).1 = FinalizeOutcome.success aid →
      ∀ (key' user' : String) (now' : Nat) (today' : String),
        finalizePrize (finalizePrize s rid key user now today).2 rid key' user' now' today' =
          (.invalidOrExpired, (finalizePrize s rid key user now today).2)) := by
  refine ⟨fun s rid key user now today h => finalizePrize_rejected s rid key user now today h,
    ?_, fun s rid key user now today aid h key' user' now' today' =>
      finalizePrize_at_most_once s rid key user now today aid h key' user' now' today'⟩
  intro s rid key user now today h
  rcases finalizePrize_spec s rid key user now today with ⟨heq, _⟩ | ⟨_, _, ⟨aid, hs⟩, _⟩
  · exact heq
  · exact absurd hs (h aid)

theorem c5_finalize_at_most_once_witness :
    finalizePrize c5State "r2" "k2" "u2" 100 "2025-10-01" = (.invalidOrExpired, c5State) ∧
    finalizePrize (finalizePrize c5State "r1" "k1" "u1" 100 "2025-10-01").2
        "r1" "k1" "u3" 150 "2025-10-01" =
      (.invalidOrExpired, (finalizePrize c5State "r1" "k1" "u1" 100 "2025-10-01").2) :=
  ⟨c5_finalize_at_most_once.1 c5State "r2" "k2" "u2" 100 "2025-10-01" (by decide),
   c5_finalize_at_most_once.2.2 c5State "r1" "k1" "u1" 100 "2025-10-01"
     "award_r1_100" (by decide) "k1" "u3" 150 "2025-10-01"⟩

/-- C6 counterexample: the claim's "a prize with remaining_quantity = 0
never appears in the output" fails on the code: an is_unlimited inventory
row passes the availability query regardless of remaining_quantity, so a
prize with remaining_quantity = 0 and is_unlimited = 1 is listed. -/
theorem c6_counterexample :
    (getAvailablePrizes c6State "2025-10-01").map (fun r => (r.prize.pid, r.remaining)) =
      [(1, 0)] ∧
    (invLookup c6State.inventory 1 "2025-10-01").map (fun e => e.isUnlimited) =
      some true := by
  refine ⟨by decide, by decide⟩

/-- C6 (amended): the awardable list contains exactly the active prizes
with an inventory record for the date satisfying (remaining_quantity > 0 or
is_unlimited) and (is_unlimited or wins-today < per_day_limit); a prize
with no inventory record for the date is unavailable, and a prize with
remaining_quantity = 0 never appears unless its record is is_unlimited. -/
theorem c6_awardable_characterization :
    (∀ (s : ApiState) (d : String) (row : AvailRow), row ∈ getAvailablePrizes s d →
      row.isUnlimited = false → 0 < row.remaining) ∧
    (∀ (s : ApiState) (d : String) (pid : Nat),
      (∃ row ∈ getAvailablePrizes s d, row.prize.pid = pid) ↔
      (∃ p ∈ s.prizes, p.pid = pid ∧ p.isActive = true ∧
        ∃ e, invLookup s.inventory pid d = some e ∧
          (0 < e.remaining ∨ e.isUnlimited = true) ∧
          (e.isUnlimited = true ∨ countWins s.wins pid d < e.perDayLimit))) := by
  constructor
  · intro s d row hrow hunl
    obtain ⟨_, _, _, _, hq, _⟩ := avail_row_spec hrow
    rcases hq with hq | hq
    · exact hq
    · rw [hunl] at hq; cases hq
  · intro s d pid
    constructor
    · rintro ⟨row, hrow, hpid⟩
      obtain ⟨hmem, hact, ⟨e, hinv, hrem, hunl, hlim⟩, hwins, hq, hcap⟩ := avail_row_spec hrow
      rw [hpid] at hinv hcap
      refine ⟨row.prize, hmem, hpid, hact, e, hinv, ?_, ?_⟩
      · rw [hrem, hunl]; exact hq
      · rw [hunl, hlim]; exact hcap
    · rintro ⟨p, hp, hpid, hact, e, hinv, hq, hcap⟩
      rw [← hpid] at hinv hcap
      obtain ⟨row, hrow, hprize, _⟩ := avail_row_intro hp hact hinv hq hcap
      exact ⟨row, hrow, by rw [hprize, hpid]⟩

theorem c6_awardable_characterization_witness :
    0 < c6bRow.remaining ∧
    (∃ row ∈ getAvailablePrizes c6bState "2025-10-01", row.prize.pid = 2) :=
  ⟨c6_awardable_characterization.1 c6bState "2025-10-01" c6bRow (by decide) (by decide),
   (c6_awardable_characterization.2 c6bState "2025-10-01" 2).mpr
     ⟨giftBRare, by decide, by decide, by decide,
      ⟨2, "2025-10-01", 5, 5, 1, false⟩, by decide, by decide, by decide⟩⟩

/-- C7 counterexample: an is_unlimited prize whose wins today already equal
per_day_limit is NOT excluded from the candidate set — the availability
query's `pi.is_unlimited = 1 OR today_wins < per_day_limit` lets it
through, contradicting the claim that the cap still applies there. -/
theorem c7_counterexample :
    countWins c7State.wins 1 "2025-10-01" = 1 ∧
    (invLookup c7State.inventory 1 "2025-10-01").map
      (fun e => (e.perDayLimit, e.isUnlimited)) = some (1, true) ∧
    (getAvailablePrizes c7State "2025-10-01").map (fun r => r.prize.pid) = [1] := by
  refine ⟨by decide, by decide, by decide⟩

/-- C7 (amended): is_unlimited is treated inconsistently, not as
quantity-only.  In candidate selection an is_unlimited record bypasses both
the quantity check and the per-day cap: an active prize with an unlimited
record for the date is listed no matter how many wins it already has.  At
finalize the flag is read from the prizes table, which has no is_unlimited
column, so there the quantity and cap checks always apply — even a prize
whose inventory record is is_unlimited is rejected with the cap rejection
once today's wins reach `per_day_limit or 1`. -/
theorem c7_unlimited_cap_amended :
    (∀ (s : ApiState) (d : String) (p : Prize) (e : InvEntry),
      p ∈ s.prizes → p.isActive = true → invLookup s.inventory p.pid d = some e →
      e.isUnlimited = true →
      ∃ row ∈ getAvailablePrizes s d, row.prize.pid = p.pid ∧ row.isUnlimited = true) ∧
    (∀ (s : ApiState) (rid key user : String) (now : Nat) (today : String)
       (resv : Reservation) (p : Prize) (inv : InvEntry),
      s.reservations.find? (fun r => r.rid == rid && r.key == key &&
        r.status == RStatus.reserved && decide (now < r.expiresAt)) = some resv →
      prizeLookup s.prizes resv.pid = some p →
      invLookup s.inventory resv.pid today = some inv →
      inv.isUnlimited = true →
      ¬ inv.remaining ≤ 0 →
      effectiveLimit inv.perDayLimit ≤ countWins s.wins resv.pid today →
      finalizePrize s rid key user now today = (.capReached, s)) := by
  constructor
  · intro s d p e hp hact hinv hunl
    obtain ⟨row, hrow, hprize, _, hru, _⟩ :=
      avail_row_intro hp hact hinv (Or.inr hunl) (Or.inl hunl)
    exact ⟨row, hrow, by rw [hprize], by rw [hru, hunl]⟩
  · intro s rid key user now today resv p inv hres hp hinv hunl h1 h2
    rw [finalizePrize]
    simp only [hres, hp, hinv]
    rw [if_neg h1, if_pos h2]

theorem c7_unlimited_cap_amended_witness :
    (∃ row ∈ getAvailablePrizes c7State "2025-10-01",
      row.prize.pid = 1 ∧ row.isUnlimited = true) ∧
    finalizePrize c7State "r1" "k1" "u1" 100 "2025-10-01" = (.capReached, c7State) :=
  ⟨c7_unlimited_cap_amended.1 c7State "2025-10-01" giftACommon
     ⟨1, "2025-10-01", 5, 5, 1, true⟩ (by decide) (by decide) (by decide) (by decide),
   c7_unlimited_cap_amended.2 c7State "r1" "k1" "u1" 100 "2025-10-01"
     ⟨"r1", "k1", "u1", 1, 0, mkRat 180 1, 40, 340, .reserved⟩ giftACommon
     ⟨1, "2025-10-01", 5, 5, 1, true⟩ (by decide) (by decide) (by decide)
     (by decide) (by decide) (by decide)⟩

/-- C8: with a win snapshot whose rare share is 100 percent — far above the
30 percent target — the forced rare-tier pick still fires whenever the
seeded coin is below 0.50 (here it returns the ultra-rare row, while the
same entropy under a high coin takes the weighted fallback and returns the
common row), and the same forced pick happens at rare share 0; the computed
boost_rare_items flag (backend-api.py:786) is dead and the share never
gates the boost, contradicting both the claim and the function's own log
message "Boosting rare item selection due to low rare win percentage". -/
theorem c8_boost_ignores_rare_share :
    3 * c8Stats.totalWins ≤ 10 * c8Stats.rareWins ∧
    selectRandomPrize c8Avail c8Stats (mkRat 1 4) 0 = some c8UltraRow ∧
    selectRandomPrize c8Avail c8Stats (mkRat 3 4) 0 = some c8CommonRow ∧
    selectRandomPrize c8Avail ⟨4, 0⟩ (mkRat 1 4) 0 = some c8UltraRow := by
  refine ⟨by decide, by decide, by decide, by decide⟩

/-- C9 counterexample: two allocator calls with the identical candidate
set, identical win-count snapshot and the same seeded-PRNG draw return
different prizes when the OS-entropy draw behind secrets.choice differs —
and random.seed does not fix that draw, so "the same random-source seed"
does not determine the result. -/
theorem c9_counterexample :
    selectRandomPrize c9Avail c9Stats (mkRat 1 10) 0 ≠
      selectRandomPrize c9Avail c9Stats (mkRat 1 10) 1 := by
  decide

/-- C9 (amended): the allocator's result is a function of the candidate
list and the two random draws alone (the seeded coin and the OS-entropy
choice index); the win-count snapshot it reads is never used in the
selection, so the result is independent of it.  Determinism across calls
therefore requires fixing the OS-entropy draw as well, which seeding the
PRNG does not do (backend-api.py draws the actual choices with
secrets.choice). -/
theorem c9_allocator_purity_amended :
    ∀ (avail : List AvailRow) (stats₁ stats₂ : TierStats) (coin : ℚ) (ent : Nat),
      selectRandomPrize avail stats₁ coin ent = selectRandomPrize avail stats₂ coin ent :=
  fun _ _ _ _ _ => rfl

/-- C10: if the spin endpoint is called with a selected_prize_id that is
absent from the available set while other prizes remain available, the
request is not failed: the handler silently selects and awards a different
available prize via the allocator, so the successful response carries a
prize id different from the one the client submitted. -/
theorem c10_spin_silently_substitutes (s : ApiState) (selectedPrizeId : Nat)
    (user today : String) (coin : ℚ) (ent : Nat)
    (h0 : selectedPrizeId ≠ 0) (hne : getAvailablePrizes s today ≠ [])
    (habs : ∀ row ∈ getAvailablePrizes s today, row.prize.pid ≠ selectedPrizeId) :
    ∃ row, (spinWheel s selectedPrizeId user today coin ent).1 = SpinOutcome.success row ∧
      row ∈ getAvailablePrizes s today ∧ row.prize.pid ≠ selectedPrizeId := by
  rw [spinWheel, if_neg h0]
  have hfind : (getAvailablePrizes s today).find?
      (fun p => p.prize.pid == selectedPrizeId) = none := by
    rw [List.find?_eq_none]
    intro row hrow hp
    exact habs row hrow (by simpa using hp)
  simp only [hfind]
  rw [if_neg (by simpa [List.isEmpty_iff] using hne)]
  have hok : ∀ p ∈ getAvailablePrizes s today,
      p.isUnlimited = true ∨ p.todayWins < p.perDayLimit := by
    intro p hp
    obtain ⟨_, _, _, hwins, _, hcapr⟩ := avail_row_spec hp
    rcases hcapr with hu | hw
    · exact Or.inl hu
    · right; rw [hwins]; exact hw
  obtain ⟨row, hsel, hmem⟩ := selectRandomPrize_total (tierStatsOf s today) coin ent hne hok
  simp only [hsel]
  exact ⟨row, rfl, hmem, habs row hmem⟩

theorem c10_spin_silently_substitutes_witness :
    (getAvailablePrizes c10State "2025-10-01" ≠ []) ∧
    ∃ row, (spinWheel c10State 99 "u1" "2025-10-01" (mkRat 3 4) 0).1 =
        SpinOutcome.success row ∧
      row ∈ getAvailablePrizes c10State "2025-10-01" ∧ row.prize.pid ≠ 99 :=
  ⟨by decide,
   c10_spin_silently_substitutes c10State 99 "u1" "2025-10-01" (mkRat 3 4) 0
     (by decide) (by decide) (by decide)⟩

end PickerWheel
